import Mathlib

/-!
# The flat lint configuration of `eslint.config.js`

The repository is one module, `eslint.config.js`, whose default export is an
array literal: an ignore-only fragment, the general-purpose recommended
fragment, the spread of the type-aware recommended preset, the spread of the
UI-framework `flat/recommended` preset, a scoped override that turns
`vue/multi-word-component-names` off, and the formatter-compatibility fragment.

This file embeds that array literal (`defaultExport`, and `evalConfig` for the
evaluation of the module with possibly missing imports) and the part of the
flat-config semantics the specification relies on: glob selectors, fragment
applicability, last-write-wins rule resolution and global ignores.
-/

namespace EslintConfig

/-! ## Data model: configuration fragments -/

/-- Normalised severity of a rule entry (`"off"`/`0`, `"warn"`/`1`, `"error"`/`2`). -/
inductive Severity where
  | off
  | warn
  | error
deriving DecidableEq, Repr

/-- The value a fragment gives to a rule: a severity and the rule's options. -/
structure RuleSetting where
  severity : Severity
  options : List String
deriving DecidableEq, Repr

/-- A configuration fragment: one object of the flat configuration array.
A key that is absent from the object is `none`; `other` holds the keys besides
`files`, `ignores` and `rules` (for instance `name`, `plugins`, `languageOptions`)
with their values kept opaque. -/
structure Fragment where
  files : Option (List String)
  ignores : Option (List String)
  rules : Option (List (String × RuleSetting))
  other : List (String × String)
deriving DecidableEq, Repr

/-- The object `{}`. -/
def Fragment.empty : Fragment :=
  { files := none, ignores := none, rules := none, other := [] }

/-! ## Array literals with spread elements -/

/-- One element of an array literal: a plain element `e` or a spread `...e`. -/
inductive ArrayItem (α : Type) where
  | elem (x : α)
  | spread (xs : List α)

/-- The array an array literal evaluates to: elements are appended from left to
right, a spread element contributing each of its members in order. -/
def arrayLiteral {α : Type} : List (ArrayItem α) → List α
  | [] => []
  | .elem x :: rest => x :: arrayLiteral rest
  | .spread xs :: rest => xs ++ arrayLiteral rest

/-! ## The module `eslint.config.js` -/

/-- The identifier of the component-naming rule. -/
def componentNamingRule : String := "vue/multi-word-component-names"

/-- Line 8: `{ ignores: ["node_modules", ".nuxt", "dist"] }`. -/
def ignoreFragment : Fragment :=
  { files := none
    ignores := some ["node_modules", ".nuxt", "dist"]
    rules := none
    other := [] }

/-- Lines 12-17: the scoped override
`{ files: ["**/*.{ts,tsx,js,vue}"], rules: { "vue/multi-word-component-names": "off" } }`. -/
def overrideFragment : Fragment :=
  { files := some ["**/*.{ts,tsx,js,vue}"]
    ignores := none
    rules := some [("vue/multi-word-component-names", { severity := Severity.off, options := [] })]
    other := [] }

/-- The default export (lines 7-19) as a function of the four imported preset
values: `js` is `js.configs.recommended`, `tseslint` is
`tseslint.configs.recommended`, `vue` is `vue.configs["flat/recommended"]` and
`prettier` is the default export of `eslint-config-prettier`. -/
def defaultExport (js : Fragment) (tseslint vue : List Fragment) (prettier : Fragment) :
    List Fragment :=
  arrayLiteral
    [ .elem ignoreFragment,
      .elem js,
      .spread tseslint,
      .spread vue,
      .elem overrideFragment,
      .elem prettier ]

/-- The default export with the scoped override of lines 12-17 left out. -/
def defaultExportWithoutOverride (js : Fragment) (tseslint vue : List Fragment)
    (prettier : Fragment) : List Fragment :=
  arrayLiteral
    [ .elem ignoreFragment,
      .elem js,
      .spread tseslint,
      .spread vue,
      .elem prettier ]

/-! ### Evaluation of the module when imported values may be missing -/

/-- The errors evaluation of the module can end in. -/
inductive JsError where
  | moduleNotFound (specifier : String)
  | typeError (message : String)
deriving DecidableEq, Repr

/-- The `configs` object of `@eslint/js`: the `recommended` property read on
line 9 (`none` when it is `undefined`) and the presets the module does not read. -/
structure JsConfigs where
  recommended : Option Fragment
  unread : List (String × Fragment)
deriving DecidableEq, Repr

/-- The default export of `@eslint/js`; `configs` is `none` when `undefined`. -/
structure JsModule where
  configs : Option JsConfigs
deriving DecidableEq, Repr

/-- The `configs` object of `typescript-eslint`: the `recommended` property read
on line 10 and the presets the module does not read. -/
structure TsConfigs where
  recommended : Option (List Fragment)
  unread : List (String × List Fragment)
deriving DecidableEq, Repr

/-- The default export of `typescript-eslint`. -/
structure TsModule where
  configs : Option TsConfigs
deriving DecidableEq, Repr

/-- The `configs` object of `eslint-plugin-vue`: the `"flat/recommended"`
property read on line 11 and the presets the module does not read. -/
structure VueConfigs where
  flatRecommended : Option (List Fragment)
  unread : List (String × List Fragment)
deriving DecidableEq, Repr

/-- The default export of `eslint-plugin-vue`. -/
structure VueModule where
  configs : Option VueConfigs
deriving DecidableEq, Repr

/-- What the four `import` declarations of lines 2-5 resolve to. A package that
cannot be resolved is `none`; the default export of `eslint-config-prettier` is
`some none` when it is `undefined`. -/
structure Imports where
  js : Option JsModule
  tseslint : Option TsModule
  vue : Option VueModule
  prettier : Option (Option Fragment)
deriving DecidableEq, Repr

/-- Resolution of `import x from specifier`. -/
def importDefault {α : Type} (specifier : String) : Option α → Except JsError α
  | none => .error (.moduleNotFound specifier)
  | some m => .ok m

/-- The object of a property read `o.p`: reading a property of `undefined` throws. -/
def propertyBase {α : Type} (expr : String) : Option α → Except JsError α
  | none => .error (.typeError ("Cannot read properties of undefined: " ++ expr))
  | some o => .ok o

/-- The members a spread element `...e` contributes: `undefined` is not iterable. -/
def spreadMembers (expr : String) :
    Option (List Fragment) → Except JsError (List (Option Fragment))
  | none => .error (.typeError (expr ++ " is not iterable"))
  | some xs => .ok (xs.map some)

/-- Evaluation of the module: the imports are resolved first, then the array
literal is evaluated element by element from left to right. An element of the
result is `none` when it is `undefined`. -/
def evalConfig (m : Imports) : Except JsError (List (Option Fragment)) := do
  let js ← importDefault "@eslint/js" m.js
  let tseslint ← importDefault "typescript-eslint" m.tseslint
  let vue ← importDefault "eslint-plugin-vue" m.vue
  let prettier ← importDefault "eslint-config-prettier" m.prettier
  let jsConfigs ← propertyBase "js.configs" js.configs
  let tsConfigs ← propertyBase "tseslint.configs" tseslint.configs
  let tsMembers ← spreadMembers "tseslint.configs.recommended" tsConfigs.recommended
  let vueConfigs ← propertyBase "vue.configs" vue.configs
  let vueMembers ← spreadMembers "vue.configs[\"flat/recommended\"]" vueConfigs.flatRecommended
  pure (arrayLiteral
    [ .elem (some ignoreFragment),
      .elem jsConfigs.recommended,
      .spread tsMembers,
      .spread vueMembers,
      .elem (some overrideFragment),
      .elem prettier ])

/-- The imports in which every package resolves and the four preset values are
the given ones. -/
def Imports.ofPresets (js : Fragment) (tseslint vue : List Fragment) (prettier : Fragment) :
    Imports :=
  { js := some { configs := some { recommended := some js, unread := [] } }
    tseslint := some { configs := some { recommended := some tseslint, unread := [] } }
    vue := some { configs := some { flatRecommended := some vue, unread := [] } }
    prettier := some (some prettier) }

/-! ## Flat-config semantics used by the specification

The lint engine is external to the repository: none of the definitions of this
section has a counterpart in `eslint.config.js`. They are the vocabulary in
which the specification states what the composed sequence means, and follow
its data model (section 3: fragments apply in sequence order, a later
fragment's setting of a rule for a file takes precedence, a scoped override
applies only to files matching its selector, an ignore rule is a set of path
patterns excluded from all analysis) and the glob syntax the module's own
patterns use: literal characters, `?`, `*`, the globstar segment `**` and one
level of brace alternatives `{a,b,...}`. File paths are project-relative,
`/`-separated and without `.` or `..` segments; a leading dot in a name gets no
special treatment, and an ignore pattern always excludes (a leading `!` has no
re-including meaning).
-/

/-- The `/`-separated segments of a path or pattern; the result has at least
one segment. `cur` is the segment being read. -/
def splitSlashAux : List Char → List Char → List (List Char)
  | [], cur => [cur]
  | c :: cs, cur => if c = '/' then cur :: splitSlashAux cs [] else splitSlashAux cs (cur ++ [c])

/-- The `/`-separated segments of a path or pattern. -/
def splitSlash (s : List Char) : List (List Char) :=
  splitSlashAux s []

/-- The file name of a path: its last segment. -/
def fileName (path : String) : List Char :=
  (splitSlash path.data).getLastD []

/-- The first segment of a path. -/
def firstSegment (path : String) : List Char :=
  (splitSlash path.data).headD []

/-- Whether a name ends in the given extension (the dot included). -/
def endsIn (name : List Char) (ext : String) : Bool :=
  ext.data.isSuffixOf name

/-- The four extensions the override's selector lists. -/
def overrideExtensions : List String := [".ts", ".tsx", ".js", ".vue"]

/-- Whether the file name of a path ends in `.ts`, `.tsx`, `.js` or `.vue`. -/
def hasOverrideExtension (path : String) : Bool :=
  overrideExtensions.any (fun ext => endsIn (fileName path) ext)

/-- Brace expansion, one level deep. `done` holds the expansions of the text
read so far; inside a group, the third argument holds the finished alternatives
and the alternative being read. An unclosed group and a group without a comma
are literal text. -/
def expandBracesAux :
    List Char → List (List Char) → Option (List (List Char) × List Char) → List (List Char)
  | [], done, none => done
  | [], done, some (alts, cur) =>
      done.map (fun d => d ++ '{' :: (List.intercalate [','] (alts ++ [cur])))
  | c :: cs, done, none =>
      if c = '{' then expandBracesAux cs done (some ([], []))
      else expandBracesAux cs (done.map (fun d => d ++ [c])) none
  | c :: cs, done, some (alts, cur) =>
      if c = ',' then expandBracesAux cs done (some (alts ++ [cur], []))
      else if c = '}' then
        if alts.isEmpty then expandBracesAux cs (done.map (fun d => d ++ '{' :: cur ++ ['}'])) none
        else
          expandBracesAux cs (done.flatMap (fun d => (alts ++ [cur]).map (fun a => d ++ a))) none
      else expandBracesAux cs done (some (alts, cur ++ [c]))

/-- The patterns a pattern with brace alternatives stands for. -/
def expandBraces (pattern : List Char) : List (List Char) :=
  expandBracesAux pattern [[]] none

/-- Match of one path segment against one pattern segment: `*` stands for any
run of characters, `?` for one character, any other character for itself. -/
def wildMatch : List Char → List Char → Bool
  | [], s => s.isEmpty
  | p :: ps, s =>
      if p = '*' then s.tails.any (fun t => wildMatch ps t)
      else match s with
        | [] => false
        | c :: cs => (p = '?' || p = c) && wildMatch ps cs

/-- Match of the segments of a path against the segments of a pattern: the
segment `**` stands for any number of path segments, zero included. -/
def matchSegments : List (List Char) → List (List Char) → Bool
  | [], fs => fs.isEmpty
  | p :: ps, fs =>
      if p = ['*', '*'] then fs.tails.any (fun t => matchSegments ps t)
      else match fs with
        | [] => false
        | f :: ft => wildMatch p f && matchSegments ps ft

/-- Whether a glob pattern matches the given path segments. -/
def globMatchSegments (pattern : String) (segments : List (List Char)) : Bool :=
  (expandBraces pattern.data).any (fun p => matchSegments (splitSlash p) segments)

/-- Whether a glob pattern matches a file path. -/
def globMatch (pattern : String) (path : String) : Bool :=
  globMatchSegments pattern (splitSlash path.data)

/-- Whether some pattern of a list matches the path. -/
def anyMatch (patterns : List String) (path : String) : Bool :=
  patterns.any (fun p => globMatch p path)

/-- Whether a fragment applies to a file: its `files` selector, when present,
matches the path, and its `ignores`, when present, do not. -/
def Fragment.appliesTo (f : Fragment) (path : String) : Bool :=
  (match f.files with
    | none => true
    | some patterns => anyMatch patterns path) &&
  !(match f.ignores with
    | none => false
    | some patterns => anyMatch patterns path)

/-- The setting a fragment's `rules` mapping gives to a rule, `none` when the
fragment does not mention the rule. -/
def Fragment.setting (f : Fragment) (rule : String) : Option RuleSetting :=
  match f.rules with
  | none => none
  | some entries => entries.lookup rule

/-- What a fragment contributes to a rule on a file: its setting when it applies
to the file and mentions the rule. -/
def Fragment.write (f : Fragment) (path rule : String) : Option RuleSetting :=
  if f.appliesTo path then f.setting rule else none

/-- A later write takes precedence over the setting reached before it. -/
def overwrite (earlier later : Option RuleSetting) : Option RuleSetting :=
  match later with
  | some s => some s
  | none => earlier

/-- Last-write-wins resolution (specification, section 3): the fragments are
visited in sequence order and every fragment that applies to the file and
mentions the rule overwrites the setting reached so far, so that the result is
the setting of the last such fragment. -/
def resolve (config : List Fragment) (path rule : String) : Option RuleSetting :=
  config.foldl (fun acc f => overwrite acc (f.write path rule)) none

/-- Whether a fragment is a global ignore: it has an `ignores` list and no
other key. -/
def Fragment.isGlobalIgnore (f : Fragment) : Bool :=
  f.ignores.isSome && f.files.isNone && f.rules.isNone && f.other.isEmpty

/-- The patterns of the global ignores of a configuration, in sequence order. -/
def globalIgnores (config : List Fragment) : List String :=
  (config.filter Fragment.isGlobalIgnore).flatMap (fun f => f.ignores.getD [])

/-- The non-empty prefixes of a list of segments: the directories that contain
a file, outermost first, and last the file itself. -/
def ancestors : List (List Char) → List (List (List Char))
  | [] => []
  | s :: rest => [s] :: (ancestors rest).map (fun a => s :: a)

/-- Whether a file is excluded from all analysis (specification, section 3): a
global ignore pattern matches the file or one of the directories that contain
it. -/
def isIgnored (config : List Fragment) (path : String) : Bool :=
  (ancestors (splitSlash path.data)).any (fun a =>
    (globalIgnores config).any (fun p => globMatchSegments p a))

/-- The setting under which the engine evaluates a rule on a file: none at all
for an excluded file, the resolved setting otherwise. -/
def effectiveSetting (config : List Fragment) (path rule : String) : Option RuleSetting :=
  if isIgnored config path then none else resolve config path rule

/-- The position of the scoped override in the default export. -/
def overrideIndex (tseslint vue : List Fragment) : Nat :=
  2 + tseslint.length + vue.length

/-! ### The four preset values an import environment provides -/

/-- The value of `js.configs.recommended`, `none` when the package, its
`configs` object or the property is missing. -/
def Imports.jsRecommended (m : Imports) : Option Fragment :=
  (m.js.bind JsModule.configs).bind JsConfigs.recommended

/-- The value of `tseslint.configs.recommended`, `none` when missing. -/
def Imports.tsRecommended (m : Imports) : Option (List Fragment) :=
  (m.tseslint.bind TsModule.configs).bind TsConfigs.recommended

/-- The value of `vue.configs["flat/recommended"]`, `none` when missing. -/
def Imports.vueFlatRecommended (m : Imports) : Option (List Fragment) :=
  (m.vue.bind VueModule.configs).bind VueConfigs.flatRecommended

/-- The value of the binding `prettier`, `none` when missing. -/
def Imports.prettierValue (m : Imports) : Option Fragment :=
  m.prettier.bind id

/-- Whether every package resolves and the `configs` objects read by the module
exist, so that no import and no property read fails. -/
def Imports.linked (m : Imports) : Bool :=
  (m.js.bind JsModule.configs).isSome && (m.tseslint.bind TsModule.configs).isSome &&
    (m.vue.bind VueModule.configs).isSome && m.prettier.isSome

/-! ### Sample inputs -/

/-- A UI-framework preset of one fragment that sets the component-naming rule
to error for every file. -/
def enablingVuePreset : List Fragment :=
  [{ files := none
     ignores := none
     rules := some [("vue/multi-word-component-names", { severity := Severity.error, options := [] })]
     other := [] }]

/-- A formatter fragment that turns the rule `curly` off. -/
def curlyOffFragment : Fragment :=
  { files := none
    ignores := none
    rules := some [("curly", { severity := Severity.off, options := [] })]
    other := [] }

/-- A general-purpose fragment that sets the rule `curly` to warn. -/
def curlyWarnFragment : Fragment :=
  { files := none
    ignores := none
    rules := some [("curly", { severity := Severity.warn, options := [] })]
    other := [] }

/-- Imports in which `js.configs.recommended` and the default export of
`eslint-config-prettier` are `undefined` and the two list presets are empty. -/
def undefinedFragmentImports : Imports :=
  { js := some { configs := some { recommended := none, unread := [] } }
    tseslint := some { configs := some { recommended := some [], unread := [] } }
    vue := some { configs := some { flatRecommended := some [], unread := [] } }
    prettier := some none }

/-- Imports in which `tseslint.configs.recommended` is `undefined`. -/
def undefinedTsImports : Imports :=
  { js := some { configs := some { recommended := some Fragment.empty, unread := [] } }
    tseslint := some { configs := some { recommended := none, unread := [] } }
    vue := some { configs := some { flatRecommended := some [], unread := [] } }
    prettier := some (some Fragment.empty) }

/-- Imports with the preset values of
`Imports.ofPresets Fragment.empty [] enablingVuePreset Fragment.empty` in which
`@eslint/js` also provides a preset `all` that the module does not read. -/
def extraPresetImports : Imports :=
  { js := some { configs := some { recommended := some Fragment.empty, unread := [("all", curlyWarnFragment)] } }
    tseslint := some { configs := some { recommended := some [], unread := [] } }
    vue := some { configs := some { flatRecommended := some enablingVuePreset, unread := [] } }
    prettier := some (some Fragment.empty) }

/-! ## Lemmas on array literals and on the shape of the default export -/

theorem defaultExport_eq (js : Fragment) (tseslint vue : List Fragment) (prettier : Fragment) :
    defaultExport js tseslint vue prettier
      = [ignoreFragment, js] ++ tseslint ++ vue ++ [overrideFragment, prettier] := by
  simp [defaultExport, arrayLiteral]

theorem defaultExportWithoutOverride_eq (js : Fragment) (tseslint vue : List Fragment)
    (prettier : Fragment) :
    defaultExportWithoutOverride js tseslint vue prettier
      = [ignoreFragment, js] ++ tseslint ++ vue ++ [prettier] := by
  simp [defaultExportWithoutOverride, arrayLiteral]

theorem eraseIdx_override (js : Fragment) (tseslint vue : List Fragment) (prettier : Fragment) :
    (defaultExport js tseslint vue prettier).eraseIdx (2 + tseslint.length + vue.length)
      = defaultExportWithoutOverride js tseslint vue prettier := by
  rw [defaultExport_eq, defaultExportWithoutOverride_eq]
  have hlen : ([ignoreFragment, js] ++ tseslint ++ vue).length
      = 2 + tseslint.length + vue.length := by
    simp; omega
  rw [← hlen, List.eraseIdx_append_of_length_le (Nat.le_refl _)]
  simp

theorem evalConfig_ofPresets (js : Fragment) (tseslint vue : List Fragment)
    (prettier : Fragment) :
    evalConfig (Imports.ofPresets js tseslint vue prettier)
      = .ok ((defaultExport js tseslint vue prettier).map some) := by
  simp [evalConfig, Imports.ofPresets, importDefault, propertyBase, spreadMembers,
    defaultExport, arrayLiteral, bind, Except.bind, pure, Except.pure]

/-! ## Lemmas on last-write-wins resolution -/

theorem overwrite_none (a : Option RuleSetting) : overwrite a none = a := rfl

theorem overwrite_some (a : Option RuleSetting) (s : RuleSetting) :
    overwrite a (some s) = some s := rfl

theorem overwrite_assoc (a b c : Option RuleSetting) :
    overwrite (overwrite a b) c = overwrite a (overwrite b c) := by
  cases c <;> rfl

theorem foldl_overwrite (config : List Fragment) (path rule : String)
    (acc : Option RuleSetting) :
    config.foldl (fun a f => overwrite a (f.write path rule)) acc
      = overwrite acc (resolve config path rule) := by
  induction config using List.reverseRecOn with
  | nil => rfl
  | append_singleton xs x ih =>
    simp only [resolve, List.foldl_append, List.foldl_cons, List.foldl_nil] at ih ⊢
    rw [ih, overwrite_assoc]

theorem resolve_nil (path rule : String) : resolve [] path rule = none := rfl

theorem resolve_append (xs ys : List Fragment) (path rule : String) :
    resolve (xs ++ ys) path rule = overwrite (resolve xs path rule) (resolve ys path rule) := by
  unfold resolve
  rw [List.foldl_append]
  exact foldl_overwrite ys path rule _

theorem resolve_singleton (f : Fragment) (path rule : String) :
    resolve [f] path rule = f.write path rule := by
  simp [resolve, overwrite]
  cases f.write path rule <;> rfl

/-! ## Lemmas on glob matching -/

theorem splitSlashAux_ne_nil (s cur : List Char) : splitSlashAux s cur ≠ [] := by
  induction s generalizing cur with
  | nil => simp [splitSlashAux]
  | cons c cs ih =>
    unfold splitSlashAux
    split
    · simp
    · exact ih _

theorem splitSlash_ne_nil (s : List Char) : splitSlash s ≠ [] :=
  splitSlashAux_ne_nil s []

theorem wildMatch_literal (lit : List Char) (hlit : ∀ c ∈ lit, c ≠ '*' ∧ c ≠ '?')
    (t : List Char) : wildMatch lit t = decide (t = lit) := by
  induction lit generalizing t with
  | nil => cases t <;> simp [wildMatch]
  | cons p ps ih =>
    have hp := hlit p (List.mem_cons_self _ _)
    have hps : ∀ c ∈ ps, c ≠ '*' ∧ c ≠ '?' := fun c hc => hlit c (List.mem_cons_of_mem _ hc)
    cases t with
    | nil => simp [wildMatch, hp.1]
    | cons c cs =>
      simp only [wildMatch, hp.1, hp.2, if_false, ih hps cs]
      by_cases hpc : p = c
      · simp [hpc]
      · have : ¬ c = p := fun h => hpc h.symm
        simp [hpc, this]

theorem wildMatch_star_literal (lit : List Char) (hlit : ∀ c ∈ lit, c ≠ '*' ∧ c ≠ '?')
    (s : List Char) : wildMatch ('*' :: lit) s = lit.isSuffixOf s := by
  have hfun : (fun t => wildMatch lit t) = fun t => decide (t = lit) :=
    funext (wildMatch_literal lit hlit)
  rw [Bool.eq_iff_iff]
  simp only [wildMatch, if_true, hfun, List.any_eq_true, decide_eq_true_eq,
    List.isSuffixOf_iff_suffix]
  constructor
  · rintro ⟨t, ht, rfl⟩
    exact (List.mem_tails _ _).1 ht
  · intro h
    exact ⟨lit, (List.mem_tails _ _).2 h, rfl⟩

theorem tails_any_last (g : List Char → Bool) (fs : List (List Char)) (hfs : fs ≠ []) :
    fs.tails.any (fun t => match t with
      | [] => false
      | f :: ft => g f && matchSegments [] ft) = g (fs.getLastD []) := by
  induction fs with
  | nil => exact absurd rfl hfs
  | cons f ft ih =>
    cases ft with
    | nil => simp [matchSegments]
    | cons f2 ft2 =>
      have := ih (by simp)
      rw [List.tails, List.any_cons, this]
      simp [matchSegments]

theorem matchSegments_globstar_ext (seg : List Char) (hseg : seg ≠ ['*', '*'])
    (fs : List (List Char)) (hfs : fs ≠ []) :
    matchSegments [['*', '*'], seg] fs = wildMatch seg (fs.getLastD []) := by
  rw [← tails_any_last (wildMatch seg) fs hfs]
  simp only [matchSegments, if_true, hseg, if_false]

theorem globMatchSegments_override (fs : List (List Char)) (hfs : fs ≠ []) :
    globMatchSegments "**/*.{ts,tsx,js,vue}" fs
      = overrideExtensions.any (fun ext => endsIn (fs.getLastD []) ext) := by
  show (matchSegments [['*', '*'], '*' :: ['.', 't', 's']] fs
      || (matchSegments [['*', '*'], '*' :: ['.', 't', 's', 'x']] fs
      || (matchSegments [['*', '*'], '*' :: ['.', 'j', 's']] fs
      || (matchSegments [['*', '*'], '*' :: ['.', 'v', 'u', 'e']] fs || false))))
    = (['.', 't', 's'].isSuffixOf (fs.getLastD [])
      || (['.', 't', 's', 'x'].isSuffixOf (fs.getLastD [])
      || (['.', 'j', 's'].isSuffixOf (fs.getLastD [])
      || (['.', 'v', 'u', 'e'].isSuffixOf (fs.getLastD []) || false))))
  rw [matchSegments_globstar_ext _ (by decide) _ hfs,
    matchSegments_globstar_ext _ (by decide) _ hfs,
    matchSegments_globstar_ext _ (by decide) _ hfs,
    matchSegments_globstar_ext _ (by decide) _ hfs,
    wildMatch_star_literal _ (by decide), wildMatch_star_literal _ (by decide),
    wildMatch_star_literal _ (by decide), wildMatch_star_literal _ (by decide)]

theorem globMatch_override (path : String) :
    globMatch "**/*.{ts,tsx,js,vue}" path = hasOverrideExtension path :=
  globMatchSegments_override _ (splitSlash_ne_nil path.data)

theorem override_appliesTo (path : String) :
    overrideFragment.appliesTo path = hasOverrideExtension path := by
  simp [Fragment.appliesTo, overrideFragment, anyMatch, globMatch_override]

theorem override_setting (rule : String) :
    overrideFragment.setting rule
      = if rule = componentNamingRule then some { severity := Severity.off, options := [] }
        else none := by
  simp only [Fragment.setting, overrideFragment, componentNamingRule, List.lookup]
  by_cases h : rule = "vue/multi-word-component-names"
  · simp [h]
  · have : (rule == "vue/multi-word-component-names") = false := by simpa using h
    simp [h, this]

/-! ## Lemmas on the override and on the two variants of the sequence -/

theorem override_write (path rule : String) :
    overrideFragment.write path rule
      = if hasOverrideExtension path = true ∧ rule = componentNamingRule
        then some { severity := Severity.off, options := [] } else none := by
  unfold Fragment.write
  rw [override_appliesTo, override_setting]
  by_cases h1 : hasOverrideExtension path = true <;> by_cases h2 : rule = componentNamingRule <;>
    simp [h1, h2]

theorem resolve_defaultExport (js : Fragment) (tseslint vue : List Fragment)
    (prettier : Fragment) (path rule : String) :
    resolve (defaultExport js tseslint vue prettier) path rule
      = overwrite (overwrite (resolve ([ignoreFragment, js] ++ tseslint ++ vue) path rule)
          (overrideFragment.write path rule)) (prettier.write path rule) := by
  rw [defaultExport_eq,
    show [overrideFragment, prettier] = [overrideFragment] ++ [prettier] from rfl,
    ← List.append_assoc, resolve_append, resolve_append, resolve_singleton, resolve_singleton]

theorem resolve_withoutOverride (js : Fragment) (tseslint vue : List Fragment)
    (prettier : Fragment) (path rule : String) :
    resolve (defaultExportWithoutOverride js tseslint vue prettier) path rule
      = overwrite (resolve ([ignoreFragment, js] ++ tseslint ++ vue) path rule)
          (prettier.write path rule) := by
  rw [defaultExportWithoutOverride_eq, resolve_append, resolve_singleton]

theorem write_eq_none_of_setting (f : Fragment) (path rule : String)
    (h : f.setting rule = none) : f.write path rule = none := by
  unfold Fragment.write
  split <;> simp [h]

/-! ## The claims -/

/-- C1: for every file path whose file name ends in `.ts`, `.tsx`, `.js` or
`.vue`, and for every content of the three presets, last-write-wins resolution
of the composed sequence gives severity off for `vue/multi-word-component-names`,
provided the formatter-compatibility fragment maps rules to off only. -/
theorem component_naming_rule_off (js : Fragment) (tseslint vue : List Fragment)
    (prettier : Fragment) (path : String)
    (hext : hasOverrideExtension path = true)
    (hoff : ∀ rule s, prettier.setting rule = some s → s.severity = Severity.off) :
    (resolve (defaultExport js tseslint vue prettier) path componentNamingRule).map
      RuleSetting.severity = some Severity.off := by
  rw [resolve_defaultExport, override_write]
  simp only [hext, true_and, if_true, overwrite_some]
  unfold Fragment.write
  split
  · cases hp : prettier.setting componentNamingRule with
    | none => rfl
    | some s => simp [overwrite, hoff _ _ hp]
  · rfl

/-- Witness for C1: `index.vue` under a UI-framework preset that sets the rule
to error and a formatter fragment that turns one rule off. -/
theorem component_naming_rule_off_witness :
    hasOverrideExtension "index.vue" = true ∧
    (∀ rule s, curlyOffFragment.setting rule = some s → s.severity = Severity.off) ∧
    (resolve (defaultExport Fragment.empty [] enablingVuePreset curlyOffFragment)
      "index.vue" componentNamingRule).map RuleSetting.severity = some Severity.off :=
  have hoff : ∀ rule s, curlyOffFragment.setting rule = some s → s.severity = Severity.off := by
    intro rule s h
    simp only [Fragment.setting, curlyOffFragment, List.lookup] at h
    split at h
    · cases h; rfl
    · cases h
  ⟨by decide, hoff, component_naming_rule_off Fragment.empty [] enablingVuePreset
    curlyOffFragment "index.vue" (by decide) hoff⟩

/-- C2: for every content of the presets, the last element of the composed
sequence is the formatter-compatibility fragment, equal to the imported value. -/
theorem last_is_prettier (js : Fragment) (tseslint vue : List Fragment) (prettier : Fragment) :
    (defaultExport js tseslint vue prettier).getLast? = some prettier := by
  rw [defaultExport_eq,
    show [overrideFragment, prettier] = [overrideFragment] ++ [prettier] from rfl,
    ← List.append_assoc, List.getLast?_append]
  rfl

/-- C4: the composed sequence is `[ignore fragment, J] ++ T ++ V ++ [override, P]`,
the two list presets being flattened in their own order, and its length is
`4 + |T| + |V|`. -/
theorem presets_flattened (js : Fragment) (tseslint vue : List Fragment) (prettier : Fragment) :
    defaultExport js tseslint vue prettier
      = [ignoreFragment, js] ++ tseslint ++ vue ++ [overrideFragment, prettier] ∧
    (defaultExport js tseslint vue prettier).length = 4 + tseslint.length + vue.length := by
  refine ⟨defaultExport_eq _ _ _ _, ?_⟩
  rw [defaultExport_eq]
  simp
  omega

/-- C5, as stated, fails: with empty presets and the empty object as formatter
fragment, the last fragment of the composed sequence is not the scoped override. -/
theorem override_not_last :
    (defaultExport Fragment.empty [] [] Fragment.empty).getLast? ≠ some overrideFragment := by
  decide

/-- C5, amended: the scoped override is the second-to-last fragment of the
composed sequence. It sits at index `2 + |T| + |V|`, every fragment before it is
the ignore fragment or a fragment of the three presets, and the only fragment
after it is the formatter-compatibility fragment. -/
theorem override_second_to_last (js : Fragment) (tseslint vue : List Fragment)
    (prettier : Fragment) :
    (defaultExport js tseslint vue prettier).take (overrideIndex tseslint vue)
      = [ignoreFragment, js] ++ tseslint ++ vue ∧
    (defaultExport js tseslint vue prettier).drop (overrideIndex tseslint vue)
      = [overrideFragment, prettier] ∧
    (defaultExport js tseslint vue prettier).dropLast.getLast? = some overrideFragment := by
  have hlen : ([ignoreFragment, js] ++ tseslint ++ vue).length = overrideIndex tseslint vue := by
    simp [overrideIndex]; omega
  rw [defaultExport_eq, ← hlen]
  refine ⟨List.take_left' rfl, List.drop_left' rfl, ?_⟩
  rw [show [overrideFragment, prettier] = [overrideFragment] ++ [prettier] from rfl,
    ← List.append_assoc, List.dropLast_concat, List.getLast?_append]
  rfl

/-! ## Lemmas on global ignores -/

theorem globalIgnores_defaultExport (js : Fragment) (tseslint vue : List Fragment)
    (prettier : Fragment) :
    globalIgnores (defaultExport js tseslint vue prettier)
      = ["node_modules", ".nuxt", "dist"]
        ++ globalIgnores (js :: (tseslint ++ vue ++ [overrideFragment, prettier])) := by
  rw [defaultExport_eq]
  simp [globalIgnores, Fragment.isGlobalIgnore, ignoreFragment]

theorem ancestors_splitSlash (s : List Char) :
    ∃ rest, ancestors (splitSlash s) = [(splitSlash s).headD []] :: rest := by
  cases h : splitSlash s with
  | nil => exact absurd h (splitSlash_ne_nil s)
  | cons a as => exact ⟨_, rfl⟩

/-- C3: the first element of the composed sequence is an ignore-only fragment
whose patterns are exactly `node_modules`, `.nuxt` and `dist`; and every file
path whose first segment is one of these three names is excluded by the composed
configuration, so that no rule is evaluated on it. -/
theorem ignored_directories (js : Fragment) (tseslint vue : List Fragment)
    (prettier : Fragment) :
    (∃ f, (defaultExport js tseslint vue prettier).head? = some f ∧
      f.ignores = some ["node_modules", ".nuxt", "dist"] ∧
      f.files = none ∧ f.rules = none ∧ f.other = [] ∧ f.isGlobalIgnore = true) ∧
    ∀ path : String,
      firstSegment path ∈ ["node_modules".data, ".nuxt".data, "dist".data] →
      isIgnored (defaultExport js tseslint vue prettier) path = true ∧
      ∀ rule, effectiveSetting (defaultExport js tseslint vue prettier) path rule = none := by
  refine ⟨⟨ignoreFragment, by rw [defaultExport_eq]; rfl, rfl, rfl, rfl, rfl, rfl⟩, ?_⟩
  intro path hfirst
  have hign : isIgnored (defaultExport js tseslint vue prettier) path = true := by
    obtain ⟨rest, hanc⟩ := ancestors_splitSlash path.data
    unfold isIgnored
    rw [hanc, globalIgnores_defaultExport, List.any_cons, List.any_append]
    have hseg : (["node_modules", ".nuxt", "dist"].any
        fun p => globMatchSegments p [(splitSlash path.data).headD []]) = true := by
      have hfirst' : (splitSlash path.data).headD [] ∈
          ["node_modules".data, ".nuxt".data, "dist".data] := hfirst
      simp only [List.mem_cons, List.mem_singleton, List.not_mem_nil, or_false] at hfirst'
      rcases hfirst' with h | h | h <;> rw [h] <;> decide
    rw [hseg]
    rfl
  refine ⟨hign, fun rule => ?_⟩
  unfold effectiveSetting
  rw [hign]
  rfl

/-- Witness for C3: `node_modules/pkg/index.js` is excluded. -/
theorem ignored_directories_witness :
    firstSegment "node_modules/pkg/index.js" ∈ ["node_modules".data, ".nuxt".data, "dist".data] ∧
    isIgnored (defaultExport Fragment.empty [] [] Fragment.empty)
      "node_modules/pkg/index.js" = true ∧
    ∀ rule, effectiveSetting (defaultExport Fragment.empty [] [] Fragment.empty)
      "node_modules/pkg/index.js" rule = none :=
  ⟨by decide,
    (ignored_directories Fragment.empty [] [] Fragment.empty).2 "node_modules/pkg/index.js"
      (by decide)⟩

/-! ## Lemmas on the evaluation of the module -/

theorem evalConfig_linked (m : Imports) (ts vue : List Fragment)
    (hl : m.linked = true) (hts : m.tsRecommended = some ts)
    (hvue : m.vueFlatRecommended = some vue) :
    evalConfig m = .ok ([some ignoreFragment, m.jsRecommended] ++ ts.map some ++ vue.map some
      ++ [some overrideFragment, m.prettierValue]) := by
  obtain ⟨js, tseslint, vuem, prettier⟩ := m
  rcases js with _ | ⟨_ | ⟨jrec, junread⟩⟩ <;>
  rcases tseslint with _ | ⟨_ | ⟨trec, tunread⟩⟩ <;>
  rcases vuem with _ | ⟨_ | ⟨vrec, vunread⟩⟩ <;>
  rcases prettier with _ | p <;>
  simp_all [Imports.linked, Imports.tsRecommended, Imports.vueFlatRecommended,
    Imports.jsRecommended, Imports.prettierValue, evalConfig, importDefault, propertyBase,
    spreadMembers, arrayLiteral, bind, Except.bind, pure, Except.pure]

theorem evalConfig_error (m : Imports)
    (h : m.linked = false ∨ m.tsRecommended = none ∨ m.vueFlatRecommended = none) :
    ∃ e, evalConfig m = .error e := by
  obtain ⟨js, tseslint, vuem, prettier⟩ := m
  rcases js with _ | ⟨_ | ⟨jrec, junread⟩⟩ <;>
  rcases tseslint with _ | ⟨_ | ⟨_ | trec, tunread⟩⟩ <;>
  rcases vuem with _ | ⟨_ | ⟨_ | vrec, vunread⟩⟩ <;>
  rcases prettier with _ | p <;>
  simp_all [Imports.linked, Imports.tsRecommended, Imports.vueFlatRecommended,
    evalConfig, importDefault, propertyBase, spreadMembers, bind, Except.bind]

theorem evalConfig_ok (m : Imports) (c : List (Option Fragment)) (h : evalConfig m = .ok c) :
    ∃ ts vue, m.tsRecommended = some ts ∧ m.vueFlatRecommended = some vue ∧
      c = [some ignoreFragment, m.jsRecommended] ++ ts.map some ++ vue.map some
        ++ [some overrideFragment, m.prettierValue] := by
  cases hl : m.linked with
  | false =>
    obtain ⟨e, he⟩ := evalConfig_error m (Or.inl hl)
    rw [he] at h
    cases h
  | true =>
    cases hts : m.tsRecommended with
    | none =>
      obtain ⟨e, he⟩ := evalConfig_error m (Or.inr (Or.inl hts))
      rw [he] at h
      cases h
    | some ts =>
      cases hvue : m.vueFlatRecommended with
      | none =>
        obtain ⟨e, he⟩ := evalConfig_error m (Or.inr (Or.inr hvue))
        rw [he] at h
        cases h
      | some vue =>
        rw [evalConfig_linked m ts vue hl hts hvue] at h
        injection h with h
        exact ⟨ts, vue, rfl, rfl, h.symm⟩

/-- C6, as stated, fails: when `js.configs.recommended` and the default export
of `eslint-config-prettier` are both `undefined`, construction succeeds and the
sequence carries `undefined` in their places. -/
theorem undefined_element_carried :
    undefinedFragmentImports.jsRecommended = none ∧
    undefinedFragmentImports.prettierValue = none ∧
    evalConfig undefinedFragmentImports
      = .ok [some ignoreFragment, none, some overrideFragment, none] :=
  ⟨rfl, rfl, rfl⟩

/-- C6, amended: when a package cannot be resolved, a `configs` object is
`undefined`, or the type-aware preset or the UI-framework preset is `undefined`,
constructing the sequence fails with an error. Otherwise construction succeeds
with `[ignore, J] ++ T ++ V ++ [override, P]`, both list presets in full, where
`J` and `P` stand in their positions as they are, `undefined` included. -/
theorem missing_preset (m : Imports) :
    ((m.linked = false ∨ m.tsRecommended = none ∨ m.vueFlatRecommended = none) →
      ∃ e, evalConfig m = .error e) ∧
    (∀ ts vue, m.linked = true → m.tsRecommended = some ts → m.vueFlatRecommended = some vue →
      evalConfig m = .ok ([some ignoreFragment, m.jsRecommended] ++ ts.map some
        ++ vue.map some ++ [some overrideFragment, m.prettierValue])) :=
  ⟨evalConfig_error m, fun ts vue hl hts hvue => evalConfig_linked m ts vue hl hts hvue⟩

/-- Witness for C6, amended: an undefined type-aware preset makes construction
fail. -/
theorem missing_preset_witness :
    undefinedTsImports.tsRecommended = none ∧
    ∃ e, evalConfig undefinedTsImports = .error e :=
  ⟨rfl, (missing_preset undefinedTsImports).1 (Or.inr (Or.inl rfl))⟩

/-- C7: construction is deterministic and depends on nothing but the four preset
values the module reads. Two constructions that succeed under environments
providing the same four preset values yield sequences of the same length with
the same fragment at every index. -/
theorem construction_deterministic (m₁ m₂ : Imports) (c₁ c₂ : List (Option Fragment))
    (h₁ : evalConfig m₁ = .ok c₁) (h₂ : evalConfig m₂ = .ok c₂)
    (hjs : m₁.jsRecommended = m₂.jsRecommended)
    (hts : m₁.tsRecommended = m₂.tsRecommended)
    (hvue : m₁.vueFlatRecommended = m₂.vueFlatRecommended)
    (hprettier : m₁.prettierValue = m₂.prettierValue) :
    c₁.length = c₂.length ∧ ∀ i : Nat, c₁[i]? = c₂[i]? := by
  obtain ⟨ts₁, vue₁, ht₁, hv₁, rfl⟩ := evalConfig_ok m₁ c₁ h₁
  obtain ⟨ts₂, vue₂, ht₂, hv₂, rfl⟩ := evalConfig_ok m₂ c₂ h₂
  have e₁ : ts₁ = ts₂ := Option.some.inj (by rw [← ht₁, ← ht₂, hts])
  have e₂ : vue₁ = vue₂ := Option.some.inj (by rw [← hv₁, ← hv₂, hvue])
  subst e₁ e₂
  rw [hjs, hprettier]
  exact ⟨rfl, fun _ => rfl⟩

/-- Witness for C7: two import environments with the same four preset values
that differ in a preset the module does not read yield the same sequence. -/
theorem construction_deterministic_witness :
    Imports.ofPresets Fragment.empty [] enablingVuePreset Fragment.empty ≠ extraPresetImports ∧
    evalConfig (Imports.ofPresets Fragment.empty [] enablingVuePreset Fragment.empty)
      = .ok ((defaultExport Fragment.empty [] enablingVuePreset Fragment.empty).map some) ∧
    evalConfig extraPresetImports
      = .ok ([some ignoreFragment, some Fragment.empty] ++ enablingVuePreset.map some
          ++ [some overrideFragment, some Fragment.empty]) ∧
    ((defaultExport Fragment.empty [] enablingVuePreset Fragment.empty).map some).length
      = ([some ignoreFragment, some Fragment.empty] ++ enablingVuePreset.map some
          ++ [some overrideFragment, some Fragment.empty]).length ∧
    ∀ i : Nat, ((defaultExport Fragment.empty [] enablingVuePreset Fragment.empty).map some)[i]?
      = ([some ignoreFragment, some Fragment.empty] ++ enablingVuePreset.map some
          ++ [some overrideFragment, some Fragment.empty])[i]? :=
  ⟨by decide, evalConfig_ofPresets _ _ _ _, rfl,
    construction_deterministic
      (Imports.ofPresets Fragment.empty [] enablingVuePreset Fragment.empty) extraPresetImports
      _ _ (evalConfig_ofPresets _ _ _ _) rfl rfl rfl rfl rfl⟩

/-- C8: the override is load-bearing. For a file whose name ends in `.ts`,
`.tsx`, `.js` or `.vue`, when the formatter fragment does not mention
`vue/multi-word-component-names` and the UI-framework preset assigns the rule
the setting `s` for that file, the sequence with the override fragment removed
resolves the rule to `s`; and when `s` enables the rule, the sequences with and
without the override resolve the rule differently. -/
theorem override_load_bearing (js : Fragment) (tseslint vue : List Fragment)
    (prettier : Fragment) (path : String) (s : RuleSetting)
    (hext : hasOverrideExtension path = true)
    (hsilent : prettier.setting componentNamingRule = none)
    (hvue : resolve vue path componentNamingRule = some s) :
    resolve ((defaultExport js tseslint vue prettier).eraseIdx (overrideIndex tseslint vue))
        path componentNamingRule = some s ∧
    (s.severity ≠ Severity.off →
      resolve (defaultExport js tseslint vue prettier) path componentNamingRule
        ≠ resolve ((defaultExport js tseslint vue prettier).eraseIdx
            (overrideIndex tseslint vue)) path componentNamingRule) := by
  have hwithout : resolve ((defaultExport js tseslint vue prettier).eraseIdx
      (overrideIndex tseslint vue)) path componentNamingRule = some s := by
    rw [overrideIndex, eraseIdx_override, resolve_withoutOverride,
      write_eq_none_of_setting _ _ _ hsilent, overwrite_none, resolve_append, hvue,
      overwrite_some]
  refine ⟨hwithout, fun hs => ?_⟩
  rw [hwithout, resolve_defaultExport, write_eq_none_of_setting _ _ _ hsilent, overwrite_none,
    override_write]
  simp only [hext, true_and, if_true, overwrite_some]
  intro h
  apply hs
  injection h with h
  rw [← h]

/-- Witness for C8: `index.vue`, a UI-framework preset that sets the rule to
error and the empty object as formatter fragment. -/
theorem override_load_bearing_witness :
    hasOverrideExtension "index.vue" = true ∧
    Fragment.empty.setting componentNamingRule = none ∧
    resolve enablingVuePreset "index.vue" componentNamingRule
      = some { severity := Severity.error, options := [] } ∧
    resolve ((defaultExport Fragment.empty [] enablingVuePreset Fragment.empty).eraseIdx
        (overrideIndex [] enablingVuePreset)) "index.vue" componentNamingRule
      = some { severity := Severity.error, options := [] } ∧
    resolve (defaultExport Fragment.empty [] enablingVuePreset Fragment.empty)
        "index.vue" componentNamingRule
      ≠ resolve ((defaultExport Fragment.empty [] enablingVuePreset Fragment.empty).eraseIdx
        (overrideIndex [] enablingVuePreset)) "index.vue" componentNamingRule :=
  have h := override_load_bearing Fragment.empty [] enablingVuePreset Fragment.empty
    "index.vue" { severity := Severity.error, options := [] }
    (by decide) (by decide) (by decide)
  ⟨by decide, by decide, by decide, h.1, h.2 (by decide)⟩

/-- C9: the scoped override changes nothing but the one rule. For every file
and every rule other than `vue/multi-word-component-names`, the composed
sequence and the sequence with the override fragment removed resolve the rule
to the same setting. -/
theorem override_frame (js : Fragment) (tseslint vue : List Fragment) (prettier : Fragment)
    (path rule : String) (hrule : rule ≠ componentNamingRule) :
    resolve (defaultExport js tseslint vue prettier) path rule
      = resolve ((defaultExport js tseslint vue prettier).eraseIdx
          (overrideIndex tseslint vue)) path rule := by
  rw [overrideIndex, eraseIdx_override, resolve_withoutOverride, resolve_defaultExport,
    override_write]
  simp [hrule, overwrite_none]

/-- Witness for C9: the rule `curly` on `index.vue`, set to warn by the
general-purpose fragment. -/
theorem override_frame_witness :
    "curly" ≠ componentNamingRule ∧
    resolve (defaultExport curlyWarnFragment [] enablingVuePreset Fragment.empty)
        "index.vue" "curly"
      = resolve ((defaultExport curlyWarnFragment [] enablingVuePreset Fragment.empty).eraseIdx
          (overrideIndex [] enablingVuePreset)) "index.vue" "curly" :=
  ⟨by decide, override_frame curlyWarnFragment [] enablingVuePreset Fragment.empty
    "index.vue" "curly" (by decide)⟩

/-- C10: the scoped override applies only to its file selector. For a file whose
name does not end in `.ts`, `.tsx`, `.js` or `.vue`, the pattern
`**/*.{ts,tsx,js,vue}` does not match, and the composed sequence and the
sequence with the override fragment removed resolve
`vue/multi-word-component-names` to the same setting. -/
theorem override_scoped (js : Fragment) (tseslint vue : List Fragment) (prettier : Fragment)
    (path : String) (hext : hasOverrideExtension path = false) :
    globMatch "**/*.{ts,tsx,js,vue}" path = false ∧
    resolve (defaultExport js tseslint vue prettier) path componentNamingRule
      = resolve ((defaultExport js tseslint vue prettier).eraseIdx
          (overrideIndex tseslint vue)) path componentNamingRule := by
  refine ⟨by rw [globMatch_override, hext], ?_⟩
  rw [overrideIndex, eraseIdx_override, resolve_withoutOverride, resolve_defaultExport,
    override_write]
  simp [hext, overwrite_none]

/-- Witness for C10: `App.jsx` under a UI-framework preset that sets the rule to
error. -/
theorem override_scoped_witness :
    hasOverrideExtension "App.jsx" = false ∧
    globMatch "**/*.{ts,tsx,js,vue}" "App.jsx" = false ∧
    resolve (defaultExport Fragment.empty [] enablingVuePreset Fragment.empty)
        "App.jsx" componentNamingRule
      = resolve ((defaultExport Fragment.empty [] enablingVuePreset Fragment.empty).eraseIdx
          (overrideIndex [] enablingVuePreset)) "App.jsx" componentNamingRule :=
  ⟨by decide, override_scoped Fragment.empty [] enablingVuePreset Fragment.empty
    "App.jsx" (by decide)⟩

end EslintConfig
